import Mathlib

/-!
# Verification of `examples/models/models_solar_system.c`

A shallow embedding of the solar-system example: a tree of celestial
bodies (`Body`), the constructor `CreateBody`, the bounded child-attach
operation `AddBodyChildren`, the recursive per-frame update-and-draw
traversal `DrawBody`, the label traversal `DrawBodyLabel`, and the main
frame loop (input handling plus one draw pass per frame).

Modelling conventions:
* C `float` arithmetic is idealised as exact rational arithmetic (`ℚ`);
  every claim here is about the structure of the computation, not about
  rounding.
* `GetWorldToScreen(p, camera)` is raylib library code that is not part
  of the example file; it is modelled from the spec ("project a 3D point
  through a camera into 2D screen space") as an arbitrary function
  `proj : Vec3 → Vec2` passed to the traversal.  The example passes the
  reference point to it untransformed.
* Rendering side effects (`DrawModel`, `DrawText`, `DrawCircle3D`) carry
  no state; `DrawBody` additionally returns the list of labels of the
  bodies whose model it draws, in call order, and `DrawBodyLabel`
  returns the list of (label, anchor) pairs it would draw.
* In the C program the bodies are mutated through pointers, so attaching
  `moon` to `earth` after `earth` was attached to `sun` extends the
  `earth` node shared with `sun`'s child array.  The value embedding
  builds `earth`'s final child list first; the resulting tree is the
  same.
-/

namespace SolarSystem

/-- `MAX_BODY_CHILDREN` from the source. -/
def MAX_BODY_CHILDREN : Nat := 10

/-- 2D point (screen space), `Vector2`. -/
structure Vec2 where
  x : ℚ
  y : ℚ
deriving DecidableEq, Repr

/-- 3D point, `Vector3`. -/
structure Vec3 where
  x : ℚ
  y : ℚ
  z : ℚ
deriving DecidableEq, Repr

/-- The scalar fields of a `Body` (the opaque `Texture2D`/`Model`
rendering payload is owned by the external renderer and carries no state
relevant to any claim, so it is not represented). -/
structure BodyFields where
  label : String
  radius : ℚ
  orbitRadius : ℚ
  orbitPeriod : ℚ
  orbitPosition : ℚ
  rotationPosition : ℚ
  labelPosition : Vec2
deriving DecidableEq, Repr

/-- A `Body` together with its `children` array (`childrenCount` is the
length of the list). -/
inductive Body where
  | node : BodyFields → List Body → Body
deriving Repr

/-- The scalar fields of a body. -/
def Body.fields : Body → BodyFields
  | .node f _ => f

/-- The children array of a body. -/
def Body.children : Body → List Body
  | .node _ cs => cs

/-- `childrenCount` of a body. -/
def Body.childrenCount (b : Body) : Nat := b.children.length

mutual

/-- Number of nodes in a list of subtrees, padded so that it strictly
dominates the size of each member (termination measure). -/
def sizeList : List Body → Nat
  | [] => 0
  | c :: rest => bodySize c + sizeList rest + 1

/-- Number of nodes in a body tree, padded (termination measure). -/
def bodySize : Body → Nat
  | .node _ cs => sizeList cs + 1

end

/-- `CreateBody`: radius and orbit radius are scaled by 10, the orbit
period and label are stored unchanged, and the zero initialiser
`Body body = { 0 }` together with `body.childrenCount = 0` and
`body.orbitPosition = 0.0` leaves the child list empty and both angle
fields (and the label position) at 0. -/
def CreateBody (radius orbitRadius orbitPeriod : ℚ) (label texture_name : String) : Body :=
  .node
    { label := label
      radius := radius * 10
      orbitRadius := orbitRadius * 10
      orbitPeriod := orbitPeriod
      orbitPosition := 0
      rotationPosition := 0
      labelPosition := ⟨0, 0⟩ } []

/-- `AddBodyChildren`: if the parent is full (`childrenCount >=
MAX_BODY_CHILDREN`) it logs an error (`true` in the second component,
for the `TraceLog(LOG_ERROR, ...)` call) and leaves the parent
untouched; otherwise it appends the child and increments the count. -/
def AddBodyChildren (parent child : Body) : Body × Bool :=
  if MAX_BODY_CHILDREN ≤ parent.childrenCount then (parent, true)
  else (.node parent.fields (parent.children ++ [child]), false)

/-- The in-place angle advance `child->orbitPosition +=
rotationSpeed*360/child->orbitPeriod;` performed on a child before the
recursive `DrawBody` call. -/
def advanceBody (speed : ℚ) : Body → Body
  | .node g ds =>
    .node { g with orbitPosition := g.orbitPosition + speed * 360 / g.orbitPeriod } ds

theorem bodySize_advanceBody (speed : ℚ) (b : Body) :
    bodySize (advanceBody speed b) = bodySize b := by
  cases b with
  | node g ds => simp [advanceBody, bodySize]

mutual

/-- `DrawBody(body, camera)`: draws the body's model (logged as its
label in the second component), stores the label anchor
`GetWorldToScreen((Vector3){ body->orbitRadius, body->radius, 0.0 },
*camera)` — the reference point is passed to the projection
untransformed — then for each child advances its orbital angle and
recurses (the transform-stack calls `rlPushMatrix`/`rlRotatef`/
`rlTranslatef` and `DrawCircle3D` affect rendering only, not body
state).  Returns the updated tree and the `DrawModel` call log. -/
def DrawBody (speed : ℚ) (proj : Vec3 → Vec2) : Body → Body × List String
  | .node f cs =>
    let r := DrawBodyChildren speed proj cs
    (.node { f with labelPosition := proj ⟨f.orbitRadius, f.radius, 0⟩ } r.1,
      f.label :: r.2)

/-- The loop `for (int i = 0; i < body->childrenCount; i++)` of
`DrawBody`: each child is angle-advanced
(`child->orbitPosition += rotationSpeed*360/child->orbitPeriod`) and
then drawn recursively.  The recursive `DrawBody` call on the advanced
child is unfolded one step in place, so that the recursion is structural
(see `DrawBodyChildren_cons` for the composed form). -/
def DrawBodyChildren (speed : ℚ) (proj : Vec3 → Vec2) : List Body → List Body × List String
  | [] => ([], [])
  | .node g ds :: rest =>
    let g' := { g with orbitPosition := g.orbitPosition + speed * 360 / g.orbitPeriod }
    let rc := DrawBodyChildren speed proj ds
    let r2 := DrawBodyChildren speed proj rest
    ((.node { g' with labelPosition := proj ⟨g'.orbitRadius, g'.radius, 0⟩ } rc.1) :: r2.1,
      (g'.label :: rc.2) ++ r2.2)

end

/-- The child loop processes each child by advancing its orbital angle
and then drawing it recursively (the shape of the C loop body). -/
theorem DrawBodyChildren_cons (speed : ℚ) (proj : Vec3 → Vec2) (c : Body) (rest : List Body) :
    DrawBodyChildren speed proj (c :: rest) =
      ((DrawBody speed proj (advanceBody speed c)).1 :: (DrawBodyChildren speed proj rest).1,
        (DrawBody speed proj (advanceBody speed c)).2 ++ (DrawBodyChildren speed proj rest).2) := by
  cases c
  simp [DrawBodyChildren, DrawBody, advanceBody]

mutual

/-- `DrawBodyLabel(body)`: draws the body's label text at its stored
label anchor, then recurses into the children; it only reads the tree,
so it is embedded as the list of (label, anchor) pairs drawn, in call
order. -/
def DrawBodyLabel : Body → List (String × Vec2)
  | .node f cs => (f.label, f.labelPosition) :: DrawBodyLabelChildren cs

/-- The child loop of `DrawBodyLabel`. -/
def DrawBodyLabelChildren : List Body → List (String × Vec2)
  | [] => []
  | c :: rest => DrawBodyLabel c ++ DrawBodyLabelChildren rest

end

/-- The subtree reached by following a list of child indices (the root
is the empty path; a body is a non-root body of `t` exactly when it sits
at a nonempty path of `t`). -/
def Body.getPath : Body → List Nat → Option Body
  | b, [] => some b
  | b, i :: is =>
    match b.children[i]? with
    | some c => c.getPath is
    | none => none

/-- `N` simulated frames of the draw traversal at a constant rotation
speed (the speed is only changed by key handling between frames). -/
def simulate (speed : ℚ) (proj : Vec3 → Vec2) (n : Nat) (t : Body) : Body :=
  (fun u => (DrawBody speed proj u).1)^[n] t

/-- The orbital angle stored at path `p` (0 if the path is invalid). -/
def orbitPositionAt (t : Body) (p : List Nat) : ℚ :=
  ((t.getPath p).map fun b => b.fields.orbitPosition).getD 0

/-- The label anchor stored at path `p` (origin if the path is invalid). -/
def labelPositionAt (t : Body) (p : List Nat) : Vec2 :=
  ((t.getPath p).map fun b => b.fields.labelPosition).getD ⟨0, 0⟩

/-- Reduction of an angle modulo 360 into `[0, 360)`. -/
def angleMod (x : ℚ) : ℚ := x - 360 * ⌊x / 360⌋

mutual

/-- Every subtree of a body, in preorder (the body itself first). -/
def allBodies : Body → List Body
  | .node f cs => .node f cs :: allBodiesList cs

/-- Every subtree of every member of a list of bodies, in preorder. -/
def allBodiesList : List Body → List Body
  | [] => []
  | c :: rest => allBodies c ++ allBodiesList rest

end

mutual

/-- Number of nodes of a body tree. -/
def bodyCount : Body → Nat
  | .node _ cs => 1 + bodyCountList cs

/-- Number of nodes of a list of body trees. -/
def bodyCountList : List Body → Nat
  | [] => 0
  | c :: rest => bodyCount c + bodyCountList rest

end

mutual

/-- The labels of a body tree in preorder — the order in which the
recursive traversals visit the nodes. -/
def bodyLabels : Body → List String
  | .node f cs => f.label :: bodyLabelsList cs

/-- The labels of a list of body trees in preorder. -/
def bodyLabelsList : List Body → List String
  | [] => []
  | c :: rest => bodyLabels c ++ bodyLabelsList rest

end

mutual

/-- The divisors used by the angular-step divisions
`rotationSpeed*360/child->orbitPeriod` performed during one `DrawBody`
traversal, in evaluation order: one per child visited, and none for the
root.  (The angle advance performed on a child before recursing does not
change any `orbitPeriod`, so the periods read by the recursive calls are
those of the original tree.) -/
def DrawBodyDivisors : Body → List ℚ
  | .node _ cs => DrawBodyDivisorsChildren cs

/-- The divisors contributed by the child loop of `DrawBody`. -/
def DrawBodyDivisorsChildren : List Body → List ℚ
  | [] => []
  | c :: rest => c.fields.orbitPeriod :: (DrawBodyDivisors c ++ DrawBodyDivisorsChildren rest)

end

/-! ## The concrete system built by `main` -/

/-- `CreateBody(0.2, 0.0, 0, "sun", "2k_sun")`. -/
def sun : Body := CreateBody 0.2 0.0 0 "sun" "2k_sun"

/-- `CreateBody(0.02, 0.200, 24, "moon", "2k_moon")`. -/
def moon : Body := CreateBody 0.02 0.200 24 "moon" "2k_moon"

/-- `CreateBody(0.05, 0.396, 90, "mercury", "2k_mercury")`. -/
def mercury : Body := CreateBody 0.05 0.396 90 "mercury" "2k_mercury"

/-- `CreateBody(0.05, 0.723, 210, "venus", "2k_venus_atmosphere")`. -/
def venus : Body := CreateBody 0.05 0.723 210 "venus" "2k_venus_atmosphere"

/-- `CreateBody(0.05, 1.000, 365, "earth", "2k_earth_daymap")`. -/
def earth : Body := CreateBody 0.05 1.000 365 "earth" "2k_earth_daymap"

/-- `CreateBody(0.05, 1.523, 690, "mars", "2k_mars")`. -/
def mars : Body := CreateBody 0.05 1.523 690 "mars" "2k_mars"

/-- `CreateBody(0.05, 5.200, 4260, "jupiter", "2k_jupiter")`. -/
def jupiter : Body := CreateBody 0.05 5.200 4260 "jupiter" "2k_jupiter"

/-- `CreateBody(0.05, 9.532, 10620, "saturn", "2k_saturn")`. -/
def saturn : Body := CreateBody 0.05 9.532 10620 "saturn" "2k_saturn"

/-- `CreateBody(0.05, 19.180, 30270, "uranus", "2k_uranus")`. -/
def uranus : Body := CreateBody 0.05 19.180 30270 "uranus" "2k_uranus"

/-- `CreateBody(0.05, 30.056, 59370, "neptune", "2k_neptune")`. -/
def neptune : Body := CreateBody 0.05 30.056 59370 "neptune" "2k_neptune"

/-- `CreateBody(0.05, 39.463, 89310, "pluto", "2k_eris_fictional")`. -/
def pluto : Body := CreateBody 0.05 39.463 89310 "pluto" "2k_eris_fictional"

/-- The tree wired up by `main`: mercury, venus, earth, mars attached to
the sun (jupiter through pluto are created but their attachments are
commented out), and the moon attached to earth.  In the C program the
moon is attached through the `earth` pointer already stored in `sun`'s
child array; the value embedding completes `earth`'s child list first,
producing the same tree. -/
def solarSystem : Body :=
  let earthWithMoon := (AddBodyChildren earth moon).1
  let s1 := (AddBodyChildren sun mercury).1
  let s2 := (AddBodyChildren s1 venus).1
  let s3 := (AddBodyChildren s2 earthWithMoon).1
  (AddBodyChildren s3 mars).1

/-! ## The frame loop of `main` -/

/-- The key presses reported by `IsKeyPressed` during one frame. -/
structure InputFrame where
  keyH : Bool
  keyL : Bool
  keyLeft : Bool
  keyRight : Bool
deriving DecidableEq, Repr

/-- A frame with no key pressed. -/
def noKeys : InputFrame := ⟨false, false, false, false⟩

/-- A frame in which only the left arrow key is pressed. -/
def leftKey : InputFrame := ⟨false, false, true, false⟩

/-- The mutable program state of `main`: the global `rotationSpeed`, the
two toggles, and the body tree (rooted at `sun`). -/
structure ProgState where
  rotationSpeed : ℚ
  showHelpMenu : Bool
  showBodyLabels : Bool
  sys : Body

/-- The input-handling block of the frame loop: KEY_H toggles the help
menu, KEY_L toggles the labels, KEY_LEFT adds `-0.1` to the rotation
speed and KEY_RIGHT adds `+0.1`. -/
def updateInput (inp : InputFrame) (s : ProgState) : ProgState :=
  let s1 := if inp.keyH then { s with showHelpMenu := !s.showHelpMenu } else s
  let s2 := if inp.keyL then { s1 with showBodyLabels := !s1.showBodyLabels } else s1
  let s3 := if inp.keyLeft then { s2 with rotationSpeed := s2.rotationSpeed - 0.1 } else s2
  if inp.keyRight then { s3 with rotationSpeed := s3.rotationSpeed + 0.1 } else s3

/-- One iteration of the main loop: handle input, run `DrawBody` on the
tree (under the 3D camera mode), then, if labels are enabled, run
`DrawBodyLabel` on the updated tree.  Returns the new state and the
(label, anchor) pairs drawn by the label pass. -/
def frame (proj : Vec3 → Vec2) (inp : InputFrame) (s : ProgState) :
    ProgState × List (String × Vec2) :=
  let s' := updateInput inp s
  let r := DrawBody s'.rotationSpeed proj s'.sys
  let labels := if s'.showBodyLabels then DrawBodyLabel r.1 else []
  ({ s' with sys := r.1 }, labels)

/-- Run the frame loop over a list of per-frame inputs. -/
def runFrames (proj : Vec3 → Vec2) : List InputFrame → ProgState → ProgState
  | [], s => s
  | inp :: rest, s => runFrames proj rest (frame proj inp s).1

/-- The state after the setup code of `main`: `rotationSpeed = 0.2`,
`showHelpMenu = false`, `showBodyLabels = true`, and the wired-up tree. -/
def initState : ProgState :=
  { rotationSpeed := 0.2
    showHelpMenu := false
    showBodyLabels := true
    sys := solarSystem }

/-! ## The transform stack around a child's recursive draw

`DrawBody` brackets each recursive call with `rlRotatef(angle, 0, 1, 0);
rlTranslatef(orbitRadius, 0, 0); rlRotatef(-angle, 0, 1, 0)`.  These are
modelled as affine maps on `Vec3`, with the rotation given by the cosine
and sine of the angle so that everything stays rational. -/

/-- `rlRotatef(angle, 0, 1, 0)` as a map, given `c = cos angle` and
`s = sin angle`. -/
def rotateY (c s : ℚ) (v : Vec3) : Vec3 :=
  ⟨c * v.x + s * v.z, v.y, -s * v.x + c * v.z⟩

/-- `rlTranslatef(r, 0, 0)` as a map. -/
def translateX (r : ℚ) (v : Vec3) : Vec3 := ⟨v.x + r, v.y, v.z⟩

/-- The accumulated transform a child is drawn under, relative to its
parent's frame: rotate by the orbit angle about Y, translate out to the
orbit radius, counter-rotate (`c`, `s` are the cosine and sine of the
child's orbital angle, `r` its orbit radius). -/
def orbitTransform (c s r : ℚ) (v : Vec3) : Vec3 :=
  rotateY c s (translateX r (rotateY c (-s) v))

/-- Modelled from the spec: the label anchor the spec describes for a
drawn body — "project a fixed reference point — offset from the body's
local origin by (orbit radius, own radius, 0) in the currently active
transform frame — into 2D screen space using the active camera", with
the accumulated transform `accum` applied to the reference point before
the projection.  (`GetWorldToScreen` itself is raylib library code not
contained in the example file.) -/
def specLabelAnchor (proj : Vec3 → Vec2) (accum : Vec3 → Vec3) (f : BodyFields) : Vec2 :=
  proj (accum ⟨f.orbitRadius, f.radius, 0⟩)

/-- A concrete instance of the screen-space projection (a camera whose
projection keeps the x/y coordinates), used to evaluate the traversal on
concrete inputs. -/
def projXY : Vec3 → Vec2 := fun v => ⟨v.x, v.y⟩

/-! ## Structural lemmas about the traversal -/

/-- Advancing a child's orbital angle only rewrites its scalar fields. -/
theorem advanceBody_children (speed : ℚ) (b : Body) :
    (advanceBody speed b).children = b.children := by
  cases b
  simp [advanceBody, Body.children]

/-- The fields written by the angle advance. -/
theorem advanceBody_fields (speed : ℚ) (b : Body) :
    (advanceBody speed b).fields
      = { b.fields with
          orbitPosition := b.fields.orbitPosition + speed * 360 / b.fields.orbitPeriod } := by
  cases b
  simp [advanceBody, Body.fields]

/-- The angle advance does not change subtrees below the advanced node. -/
theorem getPath_advanceBody_cons (speed : ℚ) (c : Body) (i : Nat) (is : List Nat) :
    (advanceBody speed c).getPath (i :: is) = c.getPath (i :: is) := by
  cases c
  simp [advanceBody, Body.getPath, Body.children]

/-- The child list produced by the child loop, element by element: the
`i`-th output child is the `i`-th input child, angle-advanced and then
drawn. -/
theorem DrawBodyChildren_fst_get (speed : ℚ) (proj : Vec3 → Vec2) :
    ∀ (cs : List Body) (i : Nat),
      (DrawBodyChildren speed proj cs).1[i]?
        = cs[i]?.map fun c => (DrawBody speed proj (advanceBody speed c)).1
  | [], i => by simp [DrawBodyChildren]
  | c :: rest, 0 => by rw [DrawBodyChildren_cons]; simp
  | c :: rest, (i + 1) => by
    rw [DrawBodyChildren_cons]
    simpa using DrawBodyChildren_fst_get speed proj rest i

/-- A member of a child list is smaller than the list (for strong
induction over the nested tree type). -/
theorem bodySize_lt_of_mem : ∀ (cs : List Body) (c : Body), c ∈ cs → bodySize c < sizeList cs
  | [], c, h => absurd h (List.not_mem_nil c)
  | c' :: rest, c, h => by
    cases h with
    | head => simp [sizeList]; omega
    | tail _ h' =>
      have := bodySize_lt_of_mem rest c h'
      simp [sizeList]; omega

/-- Strong induction on the number of nodes of a body tree. -/
theorem Body.strongInd (P : Body → Prop)
    (h : ∀ t : Body, (∀ u : Body, bodySize u < bodySize t → P u) → P t) : ∀ t, P t
  | t => h t fun u hu => Body.strongInd P h u
termination_by t => bodySize t
decreasing_by exact hu

/-- The labels of a body tree are unchanged by the angle advance. -/
theorem bodyLabels_advanceBody (speed : ℚ) (b : Body) :
    bodyLabels (advanceBody speed b) = bodyLabels b := by
  cases b
  simp [advanceBody, bodyLabels]

/-- The node count of a body tree is unchanged by the angle advance. -/
theorem bodyCount_advanceBody (speed : ℚ) (b : Body) :
    bodyCount (advanceBody speed b) = bodyCount b := by
  cases b
  simp [advanceBody, bodyCount]

mutual

/-- The `DrawModel` call log of one draw pass is the preorder label list
of the tree: the draw pass visits every node exactly once, in preorder. -/
theorem DrawBody_snd (speed : ℚ) (proj : Vec3 → Vec2) :
    ∀ t : Body, (DrawBody speed proj t).2 = bodyLabels t
  | .node f cs => by
    simp only [DrawBody, bodyLabels]
    rw [DrawBodyChildren_snd speed proj cs]

/-- Child-loop part of `DrawBody_snd`. -/
theorem DrawBodyChildren_snd (speed : ℚ) (proj : Vec3 → Vec2) :
    ∀ cs : List Body, (DrawBodyChildren speed proj cs).2 = bodyLabelsList cs
  | [] => by simp [DrawBodyChildren, bodyLabelsList]
  | .node g ds :: rest => by
    simp only [DrawBodyChildren, bodyLabelsList, bodyLabels]
    rw [DrawBodyChildren_snd speed proj ds, DrawBodyChildren_snd speed proj rest]

end

mutual

/-- The label pass draws exactly the preorder label list: it too visits
every node exactly once, in preorder. -/
theorem DrawBodyLabel_map_fst :
    ∀ t : Body, (DrawBodyLabel t).map Prod.fst = bodyLabels t
  | .node f cs => by
    simp only [DrawBodyLabel, bodyLabels, List.map_cons]
    rw [DrawBodyLabelChildren_map_fst cs]

/-- Child-loop part of `DrawBodyLabel_map_fst`. -/
theorem DrawBodyLabelChildren_map_fst :
    ∀ cs : List Body, (DrawBodyLabelChildren cs).map Prod.fst = bodyLabelsList cs
  | [] => by simp [DrawBodyLabelChildren, bodyLabelsList]
  | c :: rest => by
    simp only [DrawBodyLabelChildren, bodyLabelsList, List.map_append]
    rw [DrawBodyLabel_map_fst c, DrawBodyLabelChildren_map_fst rest]

end

mutual

/-- The preorder label list has one entry per node. -/
theorem bodyLabels_length : ∀ t : Body, (bodyLabels t).length = bodyCount t
  | .node f cs => by
    simp only [bodyLabels, bodyCount, List.length_cons]
    rw [bodyLabelsList_length cs]
    omega

/-- Child-loop part of `bodyLabels_length`. -/
theorem bodyLabelsList_length : ∀ cs : List Body, (bodyLabelsList cs).length = bodyCountList cs
  | [] => by simp [bodyLabelsList, bodyCountList]
  | c :: rest => by
    simp only [bodyLabelsList, bodyCountList, List.length_append]
    rw [bodyLabels_length c, bodyLabelsList_length rest]

end

mutual

/-- The divisors used by the draw traversal are exactly the orbit
periods of the non-root bodies (every proper subtree of the tree), so
the root's orbit period never reaches the division. -/
theorem DrawBodyDivisors_eq :
    ∀ t : Body, DrawBodyDivisors t
      = (allBodiesList t.children).map fun b => b.fields.orbitPeriod
  | .node f cs => by
    simp only [DrawBodyDivisors, Body.children]
    rw [DrawBodyDivisorsChildren_eq cs]

/-- Child-loop part of `DrawBodyDivisors_eq`. -/
theorem DrawBodyDivisorsChildren_eq :
    ∀ cs : List Body, DrawBodyDivisorsChildren cs
      = (allBodiesList cs).map fun b => b.fields.orbitPeriod
  | [] => by simp [DrawBodyDivisorsChildren, allBodiesList]
  | .node g ds :: rest => by
    simp only [DrawBodyDivisorsChildren, allBodiesList, allBodies, List.map_append,
      List.map_cons]
    rw [show DrawBodyDivisors (Body.node g ds) = DrawBodyDivisorsChildren ds from by
        simp [DrawBodyDivisors],
      DrawBodyDivisorsChildren_eq ds, DrawBodyDivisorsChildren_eq rest]
    simp [Body.fields, Body.children]

end

/-- Unfolding of one `DrawBody` call (tree component). -/
theorem DrawBody_fst (speed : ℚ) (proj : Vec3 → Vec2) (f : BodyFields) (cs : List Body) :
    (DrawBody speed proj (Body.node f cs)).1
      = Body.node { f with labelPosition := proj ⟨f.orbitRadius, f.radius, 0⟩ }
          (DrawBodyChildren speed proj cs).1 := by
  simp [DrawBody]

/-- The fields of the root after one draw pass: only the label anchor is
rewritten (the root is never angle-advanced). -/
theorem DrawBody_fst_fields (speed : ℚ) (proj : Vec3 → Vec2) (b : Body) :
    ((DrawBody speed proj b).1).fields
      = { b.fields with
          labelPosition := proj ⟨b.fields.orbitRadius, b.fields.radius, 0⟩ } := by
  cases b
  simp [DrawBody, Body.fields]

/-- `getPath` on a nonempty path, invalid child index. -/
theorem Body.getPath_cons_none (b : Body) (i : Nat) (l : List Nat)
    (h : b.children[i]? = none) : b.getPath (i :: l) = none := by
  cases b
  simp only [Body.getPath, Body.children] at h ⊢
  rw [h]

/-- `getPath` on a nonempty path, valid child index. -/
theorem Body.getPath_cons_some (b c : Body) (i : Nat) (l : List Nat)
    (h : b.children[i]? = some c) : b.getPath (i :: l) = c.getPath l := by
  cases b
  simp only [Body.getPath, Body.children] at h ⊢
  rw [h]

/-- All subtrees of a member of a child list are subtrees of the list. -/
theorem allBodies_subset_allBodiesList :
    ∀ (cs : List Body) (c : Body), c ∈ cs → ∀ x, x ∈ allBodies c → x ∈ allBodiesList cs
  | [], c, h, _, _ => absurd h (List.not_mem_nil c)
  | c0 :: rest, c, h, x, hx => by
    simp only [allBodiesList, List.mem_append]
    rcases List.mem_cons.mp h with rfl | htail
    · exact Or.inl hx
    · exact Or.inr (allBodies_subset_allBodiesList rest c htail x hx)

/-- A body found at any path of `t` is one of `t`'s subtrees. -/
theorem getPath_mem_allBodies :
    ∀ (p : List Nat) (t b : Body), t.getPath p = some b → b ∈ allBodies t
  | [], t, b, hb => by
    obtain rfl : t = b := by simpa [Body.getPath] using hb
    cases t
    simp [allBodies]
  | i :: is, t, b, hb => by
    cases t with
    | node f cs =>
      cases h' : cs[i]? with
      | none =>
        rw [Body.getPath_cons_none _ i is (by simp [Body.children, h'])] at hb
        exact absurd hb (by simp)
      | some c =>
        rw [Body.getPath_cons_some _ c i is (by simp [Body.children, h'])] at hb
        have hc : c ∈ cs := by
          obtain ⟨hlt, hget⟩ := List.getElem?_eq_some_iff.mp h'
          exact hget ▸ List.getElem_mem hlt
        have hmem := getPath_mem_allBodies is c b hb
        simp only [allBodies]
        exact List.mem_cons_of_mem _ (allBodies_subset_allBodiesList cs c hc b hmem)

/-- Master description of one draw pass: the subtree stored at a
nonempty path `p` after `DrawBody` is the subtree that was there before,
angle-advanced and recursively drawn. -/
theorem getPath_DrawBody (speed : ℚ) (proj : Vec3 → Vec2) :
    ∀ (p : List Nat), p ≠ [] → ∀ t : Body,
      ((DrawBody speed proj t).1).getPath p
        = (t.getPath p).map fun b => (DrawBody speed proj (advanceBody speed b)).1
  | [], h, _ => absurd rfl h
  | i :: is, _, t => by
    cases t with
    | node f cs =>
      rw [DrawBody_fst]
      cases h' : cs[i]? with
      | none =>
        rw [Body.getPath_cons_none _ i is
            (by simp [Body.children, DrawBodyChildren_fst_get, h']),
          Body.getPath_cons_none _ i is (by simp [Body.children, h'])]
        simp
      | some c =>
        rw [Body.getPath_cons_some _ (DrawBody speed proj (advanceBody speed c)).1 i is
            (by simp [Body.children, DrawBodyChildren_fst_get, h']),
          Body.getPath_cons_some _ c i is (by simp [Body.children, h'])]
        cases is with
        | nil => simp [Body.getPath]
        | cons j js =>
          rw [getPath_DrawBody speed proj (j :: js) (by simp) (advanceBody speed c),
            getPath_advanceBody_cons]

/-- One draw pass, at the level of the stored fields of a non-root body:
its orbital angle advances by exactly `speed * 360 / orbitPeriod`, its
label anchor is recomputed from its own orbit radius and radius, and
every other field is unchanged. -/
theorem getPath_DrawBody_fields (speed : ℚ) (proj : Vec3 → Vec2) (t : Body) (p : List Nat)
    (hp : p ≠ []) (b : Body) (hb : t.getPath p = some b) :
    ∃ b', ((DrawBody speed proj t).1).getPath p = some b' ∧
      b'.fields
        = { b.fields with
            orbitPosition := b.fields.orbitPosition + speed * 360 / b.fields.orbitPeriod,
            labelPosition := proj ⟨b.fields.orbitRadius, b.fields.radius, 0⟩ } := by
  refine ⟨(DrawBody speed proj (advanceBody speed b)).1, ?_, ?_⟩
  · rw [getPath_DrawBody speed proj p hp t, hb]
    rfl
  · rw [DrawBody_fst_fields, advanceBody_fields]

/-- `N` frames at constant speed, at the level of the stored fields of
the body at path `p`: the root (empty path) keeps its orbital angle, and
every non-root body gains exactly `n` angular steps; all fields other
than the orbital angle and the label anchor are unchanged. -/
theorem getPath_simulate (speed : ℚ) (proj : Vec3 → Vec2) :
    ∀ (n : Nat) (t : Body) (p : List Nat) (b : Body), t.getPath p = some b →
      ∃ b', (simulate speed proj n t).getPath p = some b' ∧
        b'.fields.label = b.fields.label ∧
        b'.fields.radius = b.fields.radius ∧
        b'.fields.orbitRadius = b.fields.orbitRadius ∧
        b'.fields.orbitPeriod = b.fields.orbitPeriod ∧
        b'.fields.rotationPosition = b.fields.rotationPosition ∧
        b'.fields.orbitPosition = b.fields.orbitPosition +
          (if p = [] then 0 else (n : ℚ) * (speed * 360 / b.fields.orbitPeriod))
  | 0, t, p, b, hb => by
    refine ⟨b, by simpa [simulate] using hb, rfl, rfl, rfl, rfl, rfl, ?_⟩
    split <;> simp
  | n + 1, t, p, b, hb => by
    have step :
        ∃ b1, ((DrawBody speed proj t).1).getPath p = some b1 ∧
          b1.fields.label = b.fields.label ∧
          b1.fields.radius = b.fields.radius ∧
          b1.fields.orbitRadius = b.fields.orbitRadius ∧
          b1.fields.orbitPeriod = b.fields.orbitPeriod ∧
          b1.fields.rotationPosition = b.fields.rotationPosition ∧
          b1.fields.orbitPosition = b.fields.orbitPosition +
            (if p = [] then 0 else speed * 360 / b.fields.orbitPeriod) := by
      by_cases hp : p = []
      · subst hp
        obtain rfl : t = b := by simpa [Body.getPath] using hb
        exact ⟨(DrawBody speed proj t).1, rfl, by simp [DrawBody_fst_fields],
          by simp [DrawBody_fst_fields], by simp [DrawBody_fst_fields],
          by simp [DrawBody_fst_fields], by simp [DrawBody_fst_fields],
          by simp [DrawBody_fst_fields]⟩
      · obtain ⟨b1, hb1, hf1⟩ := getPath_DrawBody_fields speed proj t p hp b hb
        exact ⟨b1, hb1, by simp [hf1], by simp [hf1], by simp [hf1], by simp [hf1],
          by simp [hf1], by simp [hf1, hp]⟩
    obtain ⟨b1, hb1, g1, g2, g3, g4, g5, g6⟩ := step
    obtain ⟨b', hb', h1, h2, h3, h4, h5, h6⟩ :=
      getPath_simulate speed proj n ((DrawBody speed proj t).1) p b1 hb1
    refine ⟨b', by simpa [simulate, Function.iterate_succ_apply] using hb',
      by rw [h1, g1], by rw [h2, g2], by rw [h3, g3], by rw [h4, g4], by rw [h5, g5], ?_⟩
    rw [h6, g6, g4]
    by_cases hp : p = []
    · simp [hp]
    · simp only [if_neg hp]
      push_cast
      ring

/-! ## Frame-loop lemmas -/

/-- Input handling never touches the body tree. -/
theorem updateInput_sys (inp : InputFrame) (s : ProgState) :
    (updateInput inp s).sys = s.sys := by
  simp only [updateInput]
  split_ifs <;> rfl

/-- Input handling changes the rotation speed by `-0.1` per left press
and `+0.1` per right press, and by nothing else. -/
theorem updateInput_rotationSpeed (inp : InputFrame) (s : ProgState) :
    (updateInput inp s).rotationSpeed
      = s.rotationSpeed + (if inp.keyLeft then -(0.1 : ℚ) else 0)
          + (if inp.keyRight then (0.1 : ℚ) else 0) := by
  simp only [updateInput]
  split_ifs <;> simp <;> ring

/-- The rotation speed after a frame is the one set by input handling
(the draw passes never write it). -/
theorem frame_fst_rotationSpeed (proj : Vec3 → Vec2) (inp : InputFrame) (s : ProgState) :
    (frame proj inp s).1.rotationSpeed = (updateInput inp s).rotationSpeed := rfl

/-- The tree after a frame is the tree produced by the draw pass at the
input-updated speed; the label pass (run or skipped) never writes it. -/
theorem frame_fst_sys (proj : Vec3 → Vec2) (inp : InputFrame) (s : ProgState) :
    (frame proj inp s).1.sys
      = (DrawBody (updateInput inp s).rotationSpeed proj s.sys).1 := by
  simp [frame, updateInput_sys]

/-- One frame, seen from a non-root body: its orbital angle advances by
one step computed at the input-updated speed, and its orbit period is
unchanged. -/
theorem frame_orbit_step (proj : Vec3 → Vec2) (inp : InputFrame) (s : ProgState)
    (p : List Nat) (hp : p ≠ []) (b : Body) (hb : s.sys.getPath p = some b) :
    ∃ b', (frame proj inp s).1.sys.getPath p = some b' ∧
      b'.fields.orbitPosition = b.fields.orbitPosition
        + (updateInput inp s).rotationSpeed * 360 / b.fields.orbitPeriod ∧
      b'.fields.orbitPeriod = b.fields.orbitPeriod := by
  rw [frame_fst_sys]
  obtain ⟨b', hb', hf⟩ :=
    getPath_DrawBody_fields (updateInput inp s).rotationSpeed proj s.sys p hp b hb
  exact ⟨b', hb', by simp [hf], by simp [hf]⟩

/-! ## Claim theorems -/

/-- **C10.** For every call to `CreateBody`, the stored render radius
and orbit radius are exactly 10 times the corresponding arguments, the
orbit period and label are stored unchanged, and the child count and
both angle fields are 0. -/
theorem createBody_fields (radius orbitRadius orbitPeriod : ℚ) (label tex : String) :
    (CreateBody radius orbitRadius orbitPeriod label tex).fields.radius = radius * 10 ∧
    (CreateBody radius orbitRadius orbitPeriod label tex).fields.orbitRadius
      = orbitRadius * 10 ∧
    (CreateBody radius orbitRadius orbitPeriod label tex).fields.orbitPeriod = orbitPeriod ∧
    (CreateBody radius orbitRadius orbitPeriod label tex).fields.label = label ∧
    (CreateBody radius orbitRadius orbitPeriod label tex).childrenCount = 0 ∧
    (CreateBody radius orbitRadius orbitPeriod label tex).fields.orbitPosition = 0 ∧
    (CreateBody radius orbitRadius orbitPeriod label tex).fields.rotationPosition = 0 :=
  ⟨rfl, rfl, rfl, rfl, rfl, rfl, rfl⟩

/-- **C2.** Attaching a child to a parent that already holds
`MAX_BODY_CHILDREN` (10) children leaves the parent — its child list and
its child count — unchanged and surfaces a reportable non-fatal error
(the `LOG_ERROR` trace, `true` in the second component), and under any
sequence of attach operations the stored child count never exceeds 10. -/
theorem addBodyChildren_capacity :
    (∀ parent child : Body, parent.childrenCount = MAX_BODY_CHILDREN →
        AddBodyChildren parent child = (parent, true)) ∧
    (∀ (parent : Body) (cs : List Body), parent.childrenCount ≤ MAX_BODY_CHILDREN →
        (cs.foldl (fun a c => (AddBodyChildren a c).1) parent).childrenCount
          ≤ MAX_BODY_CHILDREN) := by
  have hstep : ∀ parent child : Body, parent.childrenCount ≤ MAX_BODY_CHILDREN →
      ((AddBodyChildren parent child).1).childrenCount ≤ MAX_BODY_CHILDREN := by
    intro parent child h
    by_cases hfull : MAX_BODY_CHILDREN ≤ parent.childrenCount
    · simpa [AddBodyChildren, hfull] using h
    · have hlt : parent.childrenCount < MAX_BODY_CHILDREN := Nat.not_le.mp hfull
      simp only [AddBodyChildren, if_neg hfull]
      simp only [Body.childrenCount, Body.children, List.length_append,
        List.length_singleton] at hlt ⊢
      omega
  constructor
  · intro parent child h
    simp [AddBodyChildren, h]
  · intro parent cs
    induction cs generalizing parent with
    | nil => intro h; simpa using h
    | cons c rest ih =>
      intro h
      simp only [List.foldl_cons]
      exact ih _ (hstep parent c h)

/-- Witness for `addBodyChildren_capacity`: a parent holding exactly 10
children rejects a further attach unchanged, and attach sequences keep
the count at most 10. -/
theorem addBodyChildren_capacity_witness :
    AddBodyChildren (Body.node sun.fields (List.replicate 10 moon)) moon
      = (Body.node sun.fields (List.replicate 10 moon), true) ∧
    ([moon, earth].foldl (fun a c => (AddBodyChildren a c).1)
        (Body.node sun.fields (List.replicate 10 moon))).childrenCount
      ≤ MAX_BODY_CHILDREN :=
  ⟨addBodyChildren_capacity.1 _ moon (by decide),
    addBodyChildren_capacity.2 _ [moon, earth] (by decide)⟩

/-- **C5.** When every attached (non-root) body has a nonzero orbit
period, no divisor used by the per-frame angular-step computation is
zero: the divisors are exactly the orbit periods of the non-root bodies
(so the root's zero period never reaches the division), and the root's
orbital angle is never modified by the traversal. -/
theorem orbit_step_divisors_nonzero (speed : ℚ) (proj : Vec3 → Vec2) (t : Body)
    (h : ∀ b, b ∈ allBodiesList t.children → b.fields.orbitPeriod ≠ 0) :
    (∀ d, d ∈ DrawBodyDivisors t → d ≠ 0) ∧
    DrawBodyDivisors t = (allBodiesList t.children).map (fun b => b.fields.orbitPeriod) ∧
    ((DrawBody speed proj t).1).fields.orbitPosition = t.fields.orbitPosition := by
  refine ⟨?_, DrawBodyDivisors_eq t, by simp [DrawBody_fst_fields]⟩
  intro d hd
  rw [DrawBodyDivisors_eq] at hd
  obtain ⟨b, hb, rfl⟩ := List.mem_map.mp hd
  exact h b hb

/-- Witness for `orbit_step_divisors_nonzero` at the program's tree. -/
theorem orbit_step_divisors_nonzero_witness :
    (∀ d, d ∈ DrawBodyDivisors solarSystem → d ≠ 0) ∧
    DrawBodyDivisors solarSystem
      = (allBodiesList solarSystem.children).map (fun b => b.fields.orbitPeriod) ∧
    ((DrawBody (1/5) projXY solarSystem).1).fields.orbitPosition
      = solarSystem.fields.orbitPosition :=
  orbit_step_divisors_nonzero (1/5) projXY solarSystem (by decide)

/-- **C6.** Each traversal pass visits every node of the tree exactly
once — the visit log of the draw pass and of the label pass is the
preorder label list, one entry per node, with no duplicate or skipped
visit — and in the default configuration the visit count is exactly 6
(1 root + 4 planets + 1 moon). -/
theorem traversal_visits_each_node_once (speed : ℚ) (proj : Vec3 → Vec2) :
    (∀ t : Body, (DrawBody speed proj t).2.length = bodyCount t ∧
        (DrawBodyLabel t).length = bodyCount t) ∧
    (DrawBody speed proj solarSystem).2
      = ["sun", "mercury", "venus", "earth", "moon", "mars"] ∧
    (DrawBodyLabel solarSystem).map Prod.fst
      = ["sun", "mercury", "venus", "earth", "moon", "mars"] ∧
    bodyCount solarSystem = 6 ∧
    ((DrawBody speed proj solarSystem).2).Nodup := by
  have hlab : bodyLabels solarSystem
      = ["sun", "mercury", "venus", "earth", "moon", "mars"] := by decide
  refine ⟨fun t => ⟨?_, ?_⟩, ?_, ?_, by decide, ?_⟩
  · rw [DrawBody_snd, bodyLabels_length]
  · have h := congrArg List.length (DrawBodyLabel_map_fst t)
    simpa [bodyLabels_length] using h
  · rw [DrawBody_snd, hlab]
  · rw [DrawBodyLabel_map_fst, hlab]
  · rw [DrawBody_snd, hlab]
    decide

/-- **C1.** For every non-root body (nonempty path) with nonzero orbit
period and angle initially 0 (as `CreateBody` leaves it), after `n`
simulated frames at constant rotation speed `speed` the stored orbital
angle equals the sum over frames of `speed * 360 / orbitPeriod`, and in
particular the two sides agree taken modulo 360. -/
theorem orbit_angle_equals_frame_sum (speed : ℚ) (proj : Vec3 → Vec2) (n : Nat) (t : Body)
    (p : List Nat) (b : Body) (hp : p ≠ []) (hb : t.getPath p = some b)
    (h0 : b.fields.orbitPosition = 0) (hper : b.fields.orbitPeriod ≠ 0) :
    ∃ b', (simulate speed proj n t).getPath p = some b' ∧
      b'.fields.orbitPosition
        = ∑ _i ∈ Finset.range n, speed * 360 / b.fields.orbitPeriod ∧
      angleMod b'.fields.orbitPosition
        = angleMod (∑ _i ∈ Finset.range n, speed * 360 / b.fields.orbitPeriod) := by
  obtain ⟨b', hb', _, _, _, _, _, hang⟩ := getPath_simulate speed proj n t p b hb
  have hval : b'.fields.orbitPosition
      = ∑ _i ∈ Finset.range n, speed * 360 / b.fields.orbitPeriod := by
    rw [Finset.sum_const, Finset.card_range, nsmul_eq_mul, hang, if_neg hp, h0, zero_add]
  exact ⟨b', hb', hval, congrArg angleMod hval⟩

/-- Witness for `orbit_angle_equals_frame_sum`: earth (path `[2]`,
period 365) after 2 frames at the initial speed `0.2`. -/
theorem orbit_angle_equals_frame_sum_witness :
    ∃ b', (simulate (1/5) projXY 2 solarSystem).getPath [2] = some b' ∧
      b'.fields.orbitPosition
        = ∑ _i ∈ Finset.range 2,
            (1/5 : ℚ) * 360 / ((AddBodyChildren earth moon).1).fields.orbitPeriod ∧
      angleMod b'.fields.orbitPosition
        = angleMod (∑ _i ∈ Finset.range 2,
            (1/5 : ℚ) * 360 / ((AddBodyChildren earth moon).1).fields.orbitPeriod) :=
  orbit_angle_equals_frame_sum (1/5) projXY 2 solarSystem [2] ((AddBodyChildren earth moon).1)
    (by decide) rfl rfl (by decide)

/-- **C7.** With rotation speed 0, for every body (any path, including
the root) and any number of simulated frames, the stored orbital angle
and self-rotation angle are unchanged. -/
theorem zero_speed_angles_unchanged (proj : Vec3 → Vec2) (n : Nat) (t : Body)
    (p : List Nat) (b : Body) (hb : t.getPath p = some b) :
    ∃ b', (simulate 0 proj n t).getPath p = some b' ∧
      b'.fields.orbitPosition = b.fields.orbitPosition ∧
      b'.fields.rotationPosition = b.fields.rotationPosition := by
  obtain ⟨b', hb', _, _, _, _, hrot, hang⟩ := getPath_simulate 0 proj n t p b hb
  refine ⟨b', hb', ?_, hrot⟩
  rw [hang]
  split <;> simp

/-- Witness for `zero_speed_angles_unchanged`: the moon (path `[2, 0]`)
after 3 frames at speed 0. -/
theorem zero_speed_angles_unchanged_witness :
    ∃ b', (simulate 0 projXY 3 solarSystem).getPath [2, 0] = some b' ∧
      b'.fields.orbitPosition = moon.fields.orbitPosition ∧
      b'.fields.rotationPosition = moon.fields.rotationPosition :=
  zero_speed_angles_unchanged projXY 3 solarSystem [2, 0] moon rfl

/-- **C4 (amended).** For every non-root body with positive orbit
period, whenever the global rotation speed is nonnegative the body's
orbital angle is non-decreasing from frame `n` to frame `n + 1`, the
per-frame change being exactly `speed * 360 / orbitPeriod` — driven only
by the global rotation speed and the body's own orbit period.  (The
unamended claim fails: the speed can be driven negative by key presses,
see `orbit_angle_mod_not_monotonic`.) -/
theorem orbit_angle_monotone_nonneg_speed (speed : ℚ) (proj : Vec3 → Vec2) (n : Nat)
    (t : Body) (p : List Nat) (b : Body) (hp : p ≠ []) (hb : t.getPath p = some b)
    (hs : 0 ≤ speed) (hper : 0 < b.fields.orbitPeriod) :
    ∃ bn bs, (simulate speed proj n t).getPath p = some bn ∧
      (simulate speed proj (n + 1) t).getPath p = some bs ∧
      bs.fields.orbitPosition
        = bn.fields.orbitPosition + speed * 360 / b.fields.orbitPeriod ∧
      bn.fields.orbitPosition ≤ bs.fields.orbitPosition := by
  obtain ⟨bn, hbn, _, _, _, _, _, han⟩ := getPath_simulate speed proj n t p b hb
  obtain ⟨bs, hbs, _, _, _, _, _, has⟩ := getPath_simulate speed proj (n + 1) t p b hb
  have hstep : 0 ≤ speed * 360 / b.fields.orbitPeriod :=
    div_nonneg (mul_nonneg hs (by norm_num)) (le_of_lt hper)
  refine ⟨bn, bs, hbn, hbs, ?_, ?_⟩
  · rw [han, has, if_neg hp, if_neg hp]
    push_cast
    ring
  · rw [han, has, if_neg hp, if_neg hp]
    push_cast
    nlinarith [hstep]

/-- Witness for `orbit_angle_monotone_nonneg_speed`: earth from frame 1
to frame 2 at the initial speed `0.2`. -/
theorem orbit_angle_monotone_nonneg_speed_witness :
    ∃ bn bs, (simulate (1/5) projXY 1 solarSystem).getPath [2] = some bn ∧
      (simulate (1/5) projXY 2 solarSystem).getPath [2] = some bs ∧
      bs.fields.orbitPosition = bn.fields.orbitPosition
        + (1/5 : ℚ) * 360 / ((AddBodyChildren earth moon).1).fields.orbitPeriod ∧
      bn.fields.orbitPosition ≤ bs.fields.orbitPosition :=
  orbit_angle_monotone_nonneg_speed (1/5) projXY 1 solarSystem [2]
    ((AddBodyChildren earth moon).1) (by decide) rfl (by norm_num) (by decide)

/-- **C4 (counterexample).** In a reachable program state — after three
left-arrow presses the global rotation speed is `-0.1` — the orbital
angle of earth taken modulo 360 strictly decreases from frame 4 to
frame 5, refuting "monotonically increasing over frames across all
reachable program states". -/
theorem orbit_angle_mod_not_monotonic :
    (runFrames projXY [leftKey, leftKey, leftKey, noKeys] initState).rotationSpeed
      = -(1/10) ∧
    angleMod (orbitPositionAt
        (runFrames projXY [leftKey, leftKey, leftKey, noKeys, noKeys] initState).sys [2])
      < angleMod (orbitPositionAt
        (runFrames projXY [leftKey, leftKey, leftKey, noKeys] initState).sys [2]) := by
  have hearth_angle : ((AddBodyChildren earth moon).1).fields.orbitPosition = 0 := rfl
  have hearth_per : ((AddBodyChildren earth moon).1).fields.orbitPeriod = 365 := rfl
  have hu1 : (updateInput leftKey initState).rotationSpeed = 1/10 := by
    rw [updateInput_rotationSpeed]
    norm_num [leftKey, initState]
  obtain ⟨b1, e1, a1, per1⟩ := frame_orbit_step projXY leftKey initState [2]
    (by decide) ((AddBodyChildren earth moon).1) rfl
  rw [hearth_per] at per1
  have b1a : b1.fields.orbitPosition = 36/365 := by
    rw [a1, hu1, hearth_angle, hearth_per]
    norm_num
  have hu2 : (updateInput leftKey (frame projXY leftKey initState).1).rotationSpeed = 0 := by
    rw [updateInput_rotationSpeed, frame_fst_rotationSpeed, hu1]
    norm_num [leftKey]
  obtain ⟨b2, e2, a2, per2⟩ := frame_orbit_step projXY leftKey
    (frame projXY leftKey initState).1 [2] (by decide) _ e1
  rw [per1] at per2
  have b2a : b2.fields.orbitPosition = 36/365 := by
    rw [a2, hu2, b1a, per1]
    norm_num
  have hu3 : (updateInput leftKey
      (frame projXY leftKey (frame projXY leftKey initState).1).1).rotationSpeed
      = -(1/10) := by
    rw [updateInput_rotationSpeed, frame_fst_rotationSpeed, hu2]
    norm_num [leftKey]
  obtain ⟨b3, e3, a3, per3⟩ := frame_orbit_step projXY leftKey
    (frame projXY leftKey (frame projXY leftKey initState).1).1 [2] (by decide) _ e2
  rw [per2] at per3
  have b3a : b3.fields.orbitPosition = 0 := by
    rw [a3, hu3, b2a, per2]
    norm_num
  have hu4 : (updateInput noKeys
      (frame projXY leftKey
        (frame projXY leftKey (frame projXY leftKey initState).1).1).1).rotationSpeed
      = -(1/10) := by
    rw [updateInput_rotationSpeed, frame_fst_rotationSpeed, hu3]
    norm_num [noKeys]
  obtain ⟨b4, e4, a4, per4⟩ := frame_orbit_step projXY noKeys
    (frame projXY leftKey
      (frame projXY leftKey (frame projXY leftKey initState).1).1).1 [2] (by decide) _ e3
  rw [per3] at per4
  have b4a : b4.fields.orbitPosition = -(36/365) := by
    rw [a4, hu4, b3a, per3]
    norm_num
  have hu5 : (updateInput noKeys
      (frame projXY noKeys
        (frame projXY leftKey
          (frame projXY leftKey (frame projXY leftKey initState).1).1).1).1).rotationSpeed
      = -(1/10) := by
    rw [updateInput_rotationSpeed, frame_fst_rotationSpeed, hu4]
    norm_num [noKeys]
  obtain ⟨b5, e5, a5, per5⟩ := frame_orbit_step projXY noKeys
    (frame projXY noKeys
      (frame projXY leftKey
        (frame projXY leftKey (frame projXY leftKey initState).1).1).1).1 [2]
    (by decide) _ e4
  have b5a : b5.fields.orbitPosition = -(72/365) := by
    rw [a5, hu5, b4a, per4]
    norm_num
  have f4 : (⌊(-(36/365 : ℚ)) / 360⌋ : ℤ) = -1 := by
    norm_num [Int.floor_eq_iff]
  have f5 : (⌊(-(72/365 : ℚ)) / 360⌋ : ℤ) = -1 := by
    norm_num [Int.floor_eq_iff]
  constructor
  · simp only [runFrames]
    rw [frame_fst_rotationSpeed, hu4]
  · simp only [runFrames]
    simp only [orbitPositionAt, e4, e5, Option.map_some', Option.getD_some]
    rw [b4a, b5a]
    simp only [angleMod]
    rw [f4, f5]
    norm_num

/-- **C8.** The body tree (all orbital and rotation angles) and the
rotation speed after a run of the frame loop do not depend on the
label-visibility flag or on the help/label toggle keys: two runs whose
inputs agree on the speed keys and whose initial states agree on speed
and tree end with identical trees, whatever the label flags did — the
label pass reads but never writes body animation state. -/
theorem label_toggle_independent (proj : Vec3 → Vec2) :
    ∀ (inps inps' : List InputFrame) (s s' : ProgState),
      inps.map InputFrame.keyLeft = inps'.map InputFrame.keyLeft →
      inps.map InputFrame.keyRight = inps'.map InputFrame.keyRight →
      s.rotationSpeed = s'.rotationSpeed → s.sys = s'.sys →
      (runFrames proj inps s).sys = (runFrames proj inps' s').sys ∧
      (runFrames proj inps s).rotationSpeed = (runFrames proj inps' s').rotationSpeed
  | [], [], s, s', _, _, h3, h4 => by
    simp only [runFrames]
    exact ⟨h4, h3⟩
  | [], i' :: r', s, s', h1, _, _, _ => by simp at h1
  | i :: r, [], s, s', h1, _, _, _ => by simp at h1
  | i :: r, i' :: r', s, s', h1, h2, h3, h4 => by
    simp only [List.map_cons, List.cons.injEq] at h1 h2
    have hsp : (updateInput i s).rotationSpeed = (updateInput i' s').rotationSpeed := by
      rw [updateInput_rotationSpeed, updateInput_rotationSpeed, h1.1, h2.1, h3]
    simp only [runFrames]
    exact label_toggle_independent proj r r' (frame proj i s).1 (frame proj i' s').1
      h1.2 h2.2
      (by rw [frame_fst_rotationSpeed, frame_fst_rotationSpeed, hsp])
      (by rw [frame_fst_sys, frame_fst_sys, hsp, h4])

/-- Witness for `label_toggle_independent`: one frame with no keys from
the initial state against one frame with the L key pressed from the
initial state with labels hidden. -/
theorem label_toggle_independent_witness :
    (runFrames projXY [noKeys] initState).sys
      = (runFrames projXY [InputFrame.mk false true false false]
          { initState with showBodyLabels := false }).sys ∧
    (runFrames projXY [noKeys] initState).rotationSpeed
      = (runFrames projXY [InputFrame.mk false true false false]
          { initState with showBodyLabels := false }).rotationSpeed :=
  label_toggle_independent projXY [noKeys] [InputFrame.mk false true false false]
    initState { initState with showBodyLabels := false } rfl rfl rfl rfl

/-- The frame loop preserves "every stored self-rotation angle is 0":
the draw pass rewrites only orbital angles and label anchors, and the
label pass writes nothing. -/
theorem runFrames_rotationPosition (proj : Vec3 → Vec2) :
    ∀ (inps : List InputFrame) (s : ProgState),
      (∀ p b, s.sys.getPath p = some b → b.fields.rotationPosition = 0) →
      ∀ p b, (runFrames proj inps s).sys.getPath p = some b →
        b.fields.rotationPosition = 0
  | [], s, hinv => by simpa [runFrames] using hinv
  | i :: r, s, hinv => by
    simp only [runFrames]
    refine runFrames_rotationPosition proj r (frame proj i s).1 ?_
    intro p b hb
    rw [frame_fst_sys] at hb
    by_cases hp : p = []
    · subst hp
      obtain rfl : (DrawBody (updateInput i s).rotationSpeed proj s.sys).1 = b := by
        simpa [Body.getPath] using hb
      rw [DrawBody_fst_fields]
      simpa using hinv [] s.sys (by simp [Body.getPath])
    · rw [getPath_DrawBody _ proj p hp] at hb
      obtain ⟨b0, hb0, rfl⟩ := Option.map_eq_some'.mp hb
      rw [DrawBody_fst_fields, advanceBody_fields]
      simpa using hinv p b0 hb0

/-- **C9.** The self-rotation angle (`rotationPosition`) is 0 at
creation, is not modified by attaching children, and after any run of
the frame loop (any inputs, any number of frames, draw and label
traversals included) every body reachable in the program's tree still
stores self-rotation angle 0: the self-rotation state is never
advanced. -/
theorem rotationPosition_always_zero :
    (∀ (radius orbitRadius orbitPeriod : ℚ) (label tex : String),
        (CreateBody radius orbitRadius orbitPeriod label tex).fields.rotationPosition
          = 0) ∧
    (∀ parent child : Body,
        ((AddBodyChildren parent child).1).fields.rotationPosition
          = parent.fields.rotationPosition) ∧
    (∀ (proj : Vec3 → Vec2) (inps : List InputFrame) (p : List Nat) (b : Body),
        (runFrames proj inps initState).sys.getPath p = some b →
        b.fields.rotationPosition = 0) := by
  refine ⟨fun _ _ _ _ _ => rfl, ?_, ?_⟩
  · intro parent child
    by_cases hfull : MAX_BODY_CHILDREN ≤ parent.childrenCount
    · simp [AddBodyChildren, hfull]
    · simp [AddBodyChildren, hfull, Body.fields]
  · intro proj inps p b hb
    refine runFrames_rotationPosition proj inps initState ?_ p b hb
    intro q c hq
    have hall : ∀ x ∈ allBodies solarSystem, x.fields.rotationPosition = 0 := by decide
    exact hall c (getPath_mem_allBodies q initState.sys c hq)

/-- Witness for `rotationPosition_always_zero`: the sun at creation, a
concrete attach, and mercury after a (zero-frame) run of the loop. -/
theorem rotationPosition_always_zero_witness :
    (CreateBody (1/5) 0 0 "sun" "2k_sun").fields.rotationPosition = 0 ∧
    ((AddBodyChildren sun earth).1).fields.rotationPosition
      = sun.fields.rotationPosition ∧
    mercury.fields.rotationPosition = 0 :=
  ⟨rotationPosition_always_zero.1 (1/5) 0 0 "sun" "2k_sun",
    rotationPosition_always_zero.2.1 sun earth,
    rotationPosition_always_zero.2.2 projXY [] [0] mercury rfl⟩

/-- **C3 (divergence).** The code stores, as a drawn child's label
anchor, the projection of the reference point `(orbitRadius, radius, 0)`
without applying the accumulated orbit transform (the source marks this
with a `TODO` on the `labelPosition` assignment), while the claim
prescribes the projection of the transformed point: in a sun–earth
system at rotation speed 0 (orbit angle 0, so the accumulated transform
is the translation by earth's orbit radius 10) the stored anchor is
`(10, 1/2)` but the claim's anchor is `(20, 1/2)`. -/
theorem labelPosition_ignores_parent_transform :
    labelPositionAt ((DrawBody 0 projXY (AddBodyChildren sun earth).1).1) [0]
      = ⟨10, 1/2⟩ ∧
    specLabelAnchor projXY (orbitTransform 1 0 earth.fields.orbitRadius) earth.fields
      = ⟨20, 1/2⟩ ∧
    labelPositionAt ((DrawBody 0 projXY (AddBodyChildren sun earth).1).1) [0]
      ≠ specLabelAnchor projXY (orbitTransform 1 0 earth.fields.orbitRadius)
          earth.fields := by
  have hor : earth.fields.orbitRadius = 10 := by
    norm_num [earth, CreateBody, Body.fields]
  have hrad : earth.fields.radius = 1/2 := by
    norm_num [earth, CreateBody, Body.fields]
  obtain ⟨b', hb', hf⟩ := getPath_DrawBody_fields 0 projXY (AddBodyChildren sun earth).1
    [0] (by decide) earth rfl
  have h1 : labelPositionAt ((DrawBody 0 projXY (AddBodyChildren sun earth).1).1) [0]
      = ⟨10, 1/2⟩ := by
    have hlp : labelPositionAt ((DrawBody 0 projXY (AddBodyChildren sun earth).1).1) [0]
        = b'.fields.labelPosition := by
      simp [labelPositionAt, hb']
    rw [hlp, hf]
    norm_num [projXY, hor, hrad]
  have h2 : specLabelAnchor projXY (orbitTransform 1 0 earth.fields.orbitRadius)
      earth.fields = ⟨20, 1/2⟩ := by
    simp only [specLabelAnchor, orbitTransform, rotateY, translateX, projXY, hor, hrad]
    norm_num [Vec2.mk.injEq]
  refine ⟨h1, h2, ?_⟩
  rw [h1, h2]
  intro hcontra
  exact absurd (congrArg Vec2.x hcontra) (by norm_num)

end SolarSystem
